import Mathlib

/-!
# WEIC Time Tracking — shallow embedding and verification

Shallow embedding of the server core of the WEIC time-tracking
application (`server/storage.ts`, `server/routes.ts`, shared schema) and
proofs about it.

Modelling conventions:
* Decimal-string fields (`hourlyRate`, `maxBillableHours`, `hoursWorked`,
  `billableHours`, `pay`) and JavaScript numbers are modelled as `ℚ`;
  timestamps (`Date.getTime()`) are `ℚ` milliseconds since the epoch.
* `randomUUID()` is modelled by a fresh-`Nat` counter `nextId` threaded
  through the store, so ids are `Nat`; the only operations the code
  performs on ids are equality tests.
* A JavaScript `Map` keyed by id, iterated with `Array.from(map.values())`
  (insertion order), is modelled as a `List` of records keyed by their
  `id` field: `set` of a fresh key appends, `set` of an existing key
  replaces in place, `delete` filters.
* `bcrypt.hash` / `bcrypt.compare` are external library calls; a hash is
  modelled as an opaque wrapper around the hashed PIN, and `compare` as
  equality with the wrapped PIN.
* The instant `now = new Date()` appears in the handlers both as a
  timestamp (`now.getTime()`) and as a calendar-date string
  (`now.toISOString().split('T')[0]`); it is modelled as a pair of both.
-/

/-- The instant `new Date()` taken by a handler: its epoch-millisecond
value together with its `YYYY-MM-DD` calendar-date string. -/
structure Instant where
  time : ℚ
  date : String
deriving Repr, DecidableEq

/-- A bcrypt hash, modelled opaquely: `bcrypt.hash pin` wraps the PIN and
`bcrypt.compare candidate hash` tests `candidate == hash.hashedPin`. -/
structure BcryptHash where
  hashedPin : String
deriving Repr, DecidableEq

/-- `Teacher` record (shared schema `teachers` table). -/
structure Teacher where
  id : Nat
  name : String
  hourlyRate : ℚ
  maxBillableHours : ℚ
  isCheckedIn : Bool
  currentCheckInTime : Option ℚ
deriving Repr, DecidableEq

/-- `TimeEntry` record (shared schema `timeEntries` table). -/
structure TimeEntry where
  id : Nat
  teacherId : Nat
  date : String
  checkInTime : ℚ
  checkOutTime : Option ℚ
  hoursWorked : Option ℚ
  billableHours : Option ℚ
  pay : Option ℚ
deriving Repr, DecidableEq

/-- `AppSettings` record (singleton PIN-hash holder). -/
structure AppSettings where
  id : Nat
  pinHash : BcryptHash
deriving Repr, DecidableEq

/-- The `MemStorage` state: teacher map, time-entry map, optional
settings, plus the fresh-id counter modelling `randomUUID()`. -/
structure StoreState where
  teachers : List Teacher
  timeEntries : List TimeEntry
  appSettings : Option AppSettings
  nextId : Nat
deriving Repr, DecidableEq

/-- The state of a freshly constructed `MemStorage`. -/
def emptyStore : StoreState :=
  { teachers := [], timeEntries := [], appSettings := none, nextId := 0 }

/-- A `Partial<Teacher>` update as the routes use it: each present field
overrides the stored one (`{ ...teacher, ...updates }`).  The routes
never include `id` in an update object, so it is not modelled. -/
structure TeacherPatch where
  name : Option String := none
  hourlyRate : Option ℚ := none
  maxBillableHours : Option ℚ := none
  isCheckedIn : Option Bool := none
  currentCheckInTime : Option (Option ℚ) := none
deriving Repr, DecidableEq

/-- `{ ...teacher, ...updates }`. -/
def applyTeacherPatch (t : Teacher) (p : TeacherPatch) : Teacher :=
  { id := t.id
    name := p.name.getD t.name
    hourlyRate := p.hourlyRate.getD t.hourlyRate
    maxBillableHours := p.maxBillableHours.getD t.maxBillableHours
    isCheckedIn := p.isCheckedIn.getD t.isCheckedIn
    currentCheckInTime := p.currentCheckInTime.getD t.currentCheckInTime }

/-- A `Partial<TimeEntry>` update restricted to the fields the checkout
route actually sends. -/
structure TimeEntryPatch where
  checkOutTime : Option (Option ℚ) := none
  hoursWorked : Option (Option ℚ) := none
  billableHours : Option (Option ℚ) := none
  pay : Option (Option ℚ) := none
deriving Repr, DecidableEq

/-- `{ ...timeEntry, ...updates }`. -/
def applyEntryPatch (e : TimeEntry) (p : TimeEntryPatch) : TimeEntry :=
  { id := e.id
    teacherId := e.teacherId
    date := e.date
    checkInTime := e.checkInTime
    checkOutTime := p.checkOutTime.getD e.checkOutTime
    hoursWorked := p.hoursWorked.getD e.hoursWorked
    billableHours := p.billableHours.getD e.billableHours
    pay := p.pay.getD e.pay }

namespace StoreState

/-- `MemStorage.getTeacher`: `this.teachers.get(id)`. -/
def getTeacher (s : StoreState) (id : Nat) : Option Teacher :=
  s.teachers.find? (fun t => t.id == id)

/-- `MemStorage.createTeacher`: fresh id, `isCheckedIn=false`,
`currentCheckInTime=null`, inserted into the map. -/
def createTeacher (s : StoreState) (name : String) (rate cap : ℚ) :
    StoreState × Teacher :=
  let t : Teacher :=
    { id := s.nextId, name := name, hourlyRate := rate,
      maxBillableHours := cap, isCheckedIn := false,
      currentCheckInTime := none }
  ({ s with teachers := s.teachers ++ [t], nextId := s.nextId + 1 }, t)

/-- `MemStorage.updateTeacher`: look up by id, merge the partial update,
store the merged record back under the same key. -/
def updateTeacher (s : StoreState) (id : Nat) (p : TeacherPatch) :
    StoreState × Option Teacher :=
  match s.teachers.find? (fun t => t.id == id) with
  | none => (s, none)
  | some t =>
    let t' := applyTeacherPatch t p
    ({ s with
        teachers := s.teachers.map (fun u => if u.id == id then t' else u) },
      some t')

/-- `MemStorage.deleteTeacher`: `this.teachers.delete(id)`. -/
def deleteTeacher (s : StoreState) (id : Nat) : StoreState × Bool :=
  ({ s with teachers := s.teachers.filter (fun t => !(t.id == id)) },
    s.teachers.any (fun t => t.id == id))

/-- `MemStorage.getTimeEntriesByTeacher`. -/
def getTimeEntriesByTeacher (s : StoreState) (teacherId : Nat) :
    List TimeEntry :=
  s.timeEntries.filter (fun e => e.teacherId == teacherId)

/-- `MemStorage.getTimeEntry`: `this.timeEntries.get(id)`. -/
def getTimeEntry (s : StoreState) (id : Nat) : Option TimeEntry :=
  s.timeEntries.find? (fun e => e.id == id)

/-- `MemStorage.createTimeEntry`: fresh id, derived pay fields `null`,
`checkOutTime` as given (the routes pass `null`). -/
def createTimeEntry (s : StoreState) (teacherId : Nat) (date : String)
    (checkInTime : ℚ) (checkOutTime : Option ℚ) : StoreState × TimeEntry :=
  let e : TimeEntry :=
    { id := s.nextId, teacherId := teacherId, date := date,
      checkInTime := checkInTime, checkOutTime := checkOutTime,
      hoursWorked := none, billableHours := none, pay := none }
  ({ s with timeEntries := s.timeEntries ++ [e], nextId := s.nextId + 1 }, e)

/-- `MemStorage.updateTimeEntry`. -/
def updateTimeEntry (s : StoreState) (id : Nat) (p : TimeEntryPatch) :
    StoreState × Option TimeEntry :=
  match s.timeEntries.find? (fun e => e.id == id) with
  | none => (s, none)
  | some e =>
    let e' := applyEntryPatch e p
    ({ s with
        timeEntries := s.timeEntries.map (fun u => if u.id == id then e' else u) },
      some e')

/-- `MemStorage.validatePin`: false when no settings exist, else
`bcrypt.compare(pin, pinHash)`. -/
def validatePin (s : StoreState) (pin : String) : Bool :=
  match s.appSettings with
  | none => false
  | some a => pin == a.pinHash.hashedPin

end StoreState

/-! ## Route handlers (`server/routes.ts`)

Each handler is a pure function from the current store state (plus the
request data and, where the handler reads it, the current instant) to
the next store state paired with the HTTP response.  An early-return
error path leaves the state exactly as the handler received it. -/

/-- Response of `POST /api/teachers/:id/checkin` and
`POST /api/teachers/:id/checkout`.  `ok` carries `res.json(updatedTeacher)`
(the value returned by `storage.updateTeacher`); `conflict` is the 400
"already checked in" / "not checked in" response; `notFound` is the 404. -/
inductive TeacherOpResult where
  | ok (updatedTeacher : Option Teacher)
  | notFound
  | conflict
deriving Repr, DecidableEq

/-- `POST /api/teachers/:id/checkin` (routes.ts lines 148–180). -/
def checkin (s : StoreState) (id : Nat) (now : Instant) :
    StoreState × TeacherOpResult :=
  match s.getTeacher id with
  | none => (s, .notFound)
  | some teacher =>
    if teacher.isCheckedIn then
      (s, .conflict)
    else
      let r1 := s.updateTeacher id
        { isCheckedIn := some true, currentCheckInTime := some (some now.time) }
      let r2 := r1.1.createTimeEntry id now.date now.time none
      (r2.1, .ok r1.2)

/-- `POST /api/teachers/:id/checkout` (routes.ts lines 183–228).  The
guard `!teacher.isCheckedIn || !teacher.currentCheckInTime` rejects
unless `isCheckedIn` is `true` and `currentCheckInTime` is non-null. -/
def checkout (s : StoreState) (id : Nat) (now : Instant) :
    StoreState × TeacherOpResult :=
  match s.getTeacher id with
  | none => (s, .notFound)
  | some teacher =>
    match teacher.isCheckedIn, teacher.currentCheckInTime with
    | true, some checkInTime =>
      let hoursWorked := (now.time - checkInTime) / (1000 * 60 * 60)
      let maxHours := teacher.maxBillableHours
      let billableHours := min hoursWorked maxHours
      let pay := billableHours * teacher.hourlyRate
      let r1 := s.updateTeacher id
        { isCheckedIn := some false, currentCheckInTime := some none }
      let todayEntry := (r1.1.getTimeEntriesByTeacher id).find?
        (fun e => e.date == now.date && e.checkOutTime.isNone)
      let s2 :=
        match todayEntry with
        | some e =>
          (r1.1.updateTimeEntry e.id
            { checkOutTime := some (some now.time),
              hoursWorked := some (some hoursWorked),
              billableHours := some (some billableHours),
              pay := some (some pay) }).1
        | none => r1.1
      (s2, .ok r1.2)
    | _, _ => (s, .conflict)

/-- Response of the admin-gated teacher mutations
(`PATCH /api/teachers/:id`, `DELETE /api/teachers/:id`). -/
inductive AdminOpResult (α : Type) where
  | ok (value : α)
  | forbidden
  | notFound
deriving Repr, DecidableEq

/-- `PATCH /api/teachers/:id` (routes.ts lines 105–124): admin gate,
then `storage.updateTeacher(id, req.body)` with an arbitrary partial
update. -/
def patchTeacher (s : StoreState) (isAdmin : Bool) (id : Nat)
    (updates : TeacherPatch) : StoreState × AdminOpResult Teacher :=
  if !isAdmin then
    (s, .forbidden)
  else
    match s.updateTeacher id updates with
    | (s1, some t) => (s1, .ok t)
    | (_, none) => (s, .notFound)

/-- `DELETE /api/teachers/:id` (routes.ts lines 127–145): admin gate,
then `storage.deleteTeacher(id)`. -/
def deleteTeacherRoute (s : StoreState) (isAdmin : Bool) (id : Nat) :
    StoreState × AdminOpResult Unit :=
  if !isAdmin then
    (s, .forbidden)
  else
    let r := s.deleteTeacher id
    if r.2 then (r.1, .ok ()) else (s, .notFound)

/-- Response of `POST /api/settings/setup-pin`.  `invalidPin` is the 400
raised when `pinSetupSchema.parse` rejects the body; `alreadySetUp` is
the 400 "PIN already set up". -/
inductive SetupPinResult where
  | ok
  | invalidPin
  | alreadySetUp
deriving Repr, DecidableEq

/-- `pinSetupSchema`: `z.string().min(4).max(6)`. -/
def pinFormatValid (pin : String) : Bool :=
  4 ≤ pin.length && pin.length ≤ 6

/-- `POST /api/settings/setup-pin` (routes.ts lines 19–35): parse the
PIN, reject when settings already exist, otherwise hash and store. -/
def setupPin (s : StoreState) (pin : String) : StoreState × SetupPinResult :=
  if !pinFormatValid pin then
    (s, .invalidPin)
  else
    match s.appSettings with
    | some _ => (s, .alreadySetUp)
    | none =>
      let settings : AppSettings := { id := s.nextId, pinHash := ⟨pin⟩ }
      ({ s with appSettings := some settings, nextId := s.nextId + 1 }, .ok)

/-- One row of the timesheet export. -/
structure ExportRow where
  teacherName : String
  date : String
  checkInTime : ℚ
  checkOutTime : Option ℚ
  hoursWorked : Option ℚ
  billableHours : Option ℚ
  hourlyRate : ℚ
  pay : Option ℚ
deriving Repr, DecidableEq

/-- Projection of one completed time entry against the teacher list:
`teacher?.name || 'Unknown'` and `teacher?.hourlyRate || '0'`
(JavaScript `||` also replaces an empty name string). -/
def exportRowOf (teachers : List Teacher) (e : TimeEntry) : ExportRow :=
  match teachers.find? (fun t => t.id == e.teacherId) with
  | some t =>
    { teacherName := if t.name == "" then "Unknown" else t.name
      date := e.date, checkInTime := e.checkInTime
      checkOutTime := e.checkOutTime, hoursWorked := e.hoursWorked
      billableHours := e.billableHours, hourlyRate := t.hourlyRate
      pay := e.pay }
  | none =>
    { teacherName := "Unknown"
      date := e.date, checkInTime := e.checkInTime
      checkOutTime := e.checkOutTime, hoursWorked := e.hoursWorked
      billableHours := e.billableHours, hourlyRate := 0
      pay := e.pay }

/-- `GET /api/export/timesheet` (routes.ts lines 251–282).  The handler
takes the `month` and `year` query parameters the client sends but never
reads `req.query`: it filters to completed entries, joins against the
teacher list, and sorts descending by date (comparator
`new Date(b.date).getTime() - new Date(a.date).getTime()`, which on
well-formed `YYYY-MM-DD` strings orders like the string order). -/
def exportTimesheet (s : StoreState) (isAdmin : Bool)
    (_month : Option String) (_year : Option String) :
    Option (List ExportRow) :=
  if !isAdmin then
    none
  else
    some (((s.timeEntries.filter (fun e => e.checkOutTime.isSome)).map
      (exportRowOf s.teachers)).mergeSort
      (fun a b => b.date ≤ a.date))

/-! ## Mutation sequences

The store-mutating operations of the API, as one inductive type, so
that reachability (“any sequence of operations from the empty store”)
can be stated. -/

/-- One store-mutating API call.  Teacher creation is performed by the
admin `POST /api/teachers` route; `mPatch`/`mDelete` carry the admin
flag of the session that issued them. -/
inductive Mutation where
  | mCreate (name : String) (rate cap : ℚ)
  | mCheckin (id : Nat) (now : Instant)
  | mCheckout (id : Nat) (now : Instant)
  | mPatch (isAdmin : Bool) (id : Nat) (updates : TeacherPatch)
  | mDelete (isAdmin : Bool) (id : Nat)
deriving Repr

/-- Apply one mutation to the store, discarding the HTTP response. -/
def applyMut (s : StoreState) : Mutation → StoreState
  | .mCreate name rate cap => (s.createTeacher name rate cap).1
  | .mCheckin id now => (checkin s id now).1
  | .mCheckout id now => (checkout s id now).1
  | .mPatch isAdmin id updates => (patchTeacher s isAdmin id updates).1
  | .mDelete isAdmin id => (deleteTeacherRoute s isAdmin id).1

/-- Run a sequence of mutations from a starting state. -/
def runMuts (s : StoreState) (ops : List Mutation) : StoreState :=
  ops.foldl applyMut s

/-- The open sessions of one teacher: that teacher's time entries with
`checkOutTime == null`. -/
def openEntriesFor (s : StoreState) (teacherId : Nat) : List TimeEntry :=
  s.timeEntries.filter
    (fun e => e.teacherId == teacherId && e.checkOutTime.isNone)

/-- The mutation is a teacher-creation, check-in, or check-out whose
instant (when it has one) falls on calendar date `d`. -/
def mutOnDate (d : String) : Mutation → Prop
  | .mCreate _ _ _ => True
  | .mCheckin _ now => now.date = d
  | .mCheckout _ now => now.date = d
  | .mPatch _ _ _ => False
  | .mDelete _ _ => False

/-- The status update the check-in route sends to `updateTeacher`. -/
def checkinPatch (now : Instant) : TeacherPatch :=
  { isCheckedIn := some true, currentCheckInTime := some (some now.time) }

/-- The status update the check-out route sends to `updateTeacher`. -/
def checkoutPatch : TeacherPatch :=
  { isCheckedIn := some false, currentCheckInTime := some none }

/-- The open entry the check-in route creates (with the store's fresh id). -/
def newOpenEntry (s : StoreState) (id : Nat) (now : Instant) : TimeEntry :=
  { id := s.nextId, teacherId := id, date := now.date, checkInTime := now.time, checkOutTime := none, hoursWorked := none, billableHours := none, pay := none }

/-- The finalization update the check-out route sends to
`updateTimeEntry` for a teacher with rate/cap data `teacher` checked in
at `c` and checking out at `now`. -/
def closeEntryPatch (now : Instant) (teacher : Teacher) (c : ℚ) : TimeEntryPatch :=
  { checkOutTime := some (some now.time)
    hoursWorked := some (some ((now.time - c) / (1000 * 60 * 60)))
    billableHours := some (some (min ((now.time - c) / (1000 * 60 * 60)) teacher.maxBillableHours))
    pay := some (some (min ((now.time - c) / (1000 * 60 * 60)) teacher.maxBillableHours * teacher.hourlyRate)) }

instance (d : String) (m : Mutation) : Decidable (mutOnDate d m) := by
  cases m <;> simp only [mutOnDate] <;> infer_instance

/-! ## Concrete fixtures used by witnesses and counterexamples -/

/-- A teacher who is currently checked in (at epoch millisecond 0). -/
def teacherIn : Teacher :=
  { id := 0, name := "Ada", hourlyRate := 20, maxBillableHours := 8,
    isCheckedIn := true, currentCheckInTime := some 0 }

/-- A teacher who is not checked in. -/
def teacherOut : Teacher :=
  { id := 0, name := "Ada", hourlyRate := 20, maxBillableHours := 8,
    isCheckedIn := false, currentCheckInTime := none }

/-- The open time entry of `teacherIn` for 2025-01-01. -/
def openEntry1 : TimeEntry :=
  { id := 1, teacherId := 0, date := "2025-01-01", checkInTime := 0,
    checkOutTime := none, hoursWorked := none, billableHours := none,
    pay := none }

/-- Store holding one checked-in teacher and their open entry for
2025-01-01. -/
def storeIn : StoreState :=
  { teachers := [teacherIn], timeEntries := [openEntry1],
    appSettings := none, nextId := 2 }

/-- Store holding one teacher who is not checked in. -/
def storeOut : StoreState :=
  { teachers := [teacherOut], timeEntries := [], appSettings := none,
    nextId := 1 }

/-- The per-teacher status invariant of the spec:
`isCheckedIn == true` iff `currentCheckInTime != null`. -/
def checkedInIffTime (s : StoreState) : Prop :=
  ∀ t ∈ s.teachers, t.isCheckedIn = true ↔ t.currentCheckInTime ≠ none

instance (s : StoreState) : Decidable (checkedInIffTime s) :=
  List.decidableBAll _ s.teachers

/-- The mutation is not an admin partial update that writes
`isCheckedIn` or `currentCheckInTime` directly. -/
def statusSafe : Mutation → Prop
  | .mPatch _ _ p => p.isCheckedIn = none ∧ p.currentCheckInTime = none
  | _ => True

/-- Inductive invariant for check-in/check-out sequences on one
calendar date `d`: ids are unique and below the fresh counter, every
entry belongs to a stored teacher, a checked-in teacher has exactly one
open entry (dated `d`) and a checked-out teacher has none. -/
structure StoreInv (d : String) (s : StoreState) : Prop where
  teachers_nodup : (s.teachers.map Teacher.id).Nodup
  entries_nodup : (s.timeEntries.map TimeEntry.id).Nodup
  teacher_lt : ∀ t ∈ s.teachers, t.id < s.nextId
  entry_lt : ∀ e ∈ s.timeEntries, e.id < s.nextId
  owner : ∀ e ∈ s.timeEntries, e.teacherId ∈ s.teachers.map Teacher.id
  open_in : ∀ t ∈ s.teachers, t.isCheckedIn = true →
    ∃ e, openEntriesFor s t.id = [e] ∧ e.date = d
  open_out : ∀ t ∈ s.teachers, t.isCheckedIn = false →
    openEntriesFor s t.id = []

/-- A completed January entry of teacher 0. -/
def janEntry : TimeEntry :=
  { id := 1, teacherId := 0, date := "2025-01-15", checkInTime := 0,
    checkOutTime := some 3600000, hoursWorked := some 1,
    billableHours := some 1, pay := some 20 }

/-- Store holding one teacher and one completed January entry. -/
def storeJan : StoreState :=
  { teachers := [teacherOut], timeEntries := [janEntry],
    appSettings := none, nextId := 3 }

/-- A completed time entry whose teacher id (5) matches no teacher. -/
def doneEntry : TimeEntry :=
  { id := 2, teacherId := 5, date := "2025-01-15", checkInTime := 0,
    checkOutTime := some 3600000, hoursWorked := some 1,
    billableHours := some 1, pay := some 20 }

/-- Store holding only the orphaned completed entry. -/
def storeOrphan : StoreState :=
  { teachers := [], timeEntries := [doneEntry], appSettings := none,
    nextId := 3 }

/-- Store whose PIN has already been configured (PIN `1234`). -/
def storePin : StoreState :=
  { teachers := [], timeEntries := [], appSettings := some ⟨0, ⟨"1234"⟩⟩,
    nextId := 1 }

/-- A same-day create / check-in / check-out run. -/
def sameDayOps : List Mutation :=
  [.mCreate "Ada" 20 8, .mCheckin 0 ⟨0, "2025-01-01"⟩,
   .mCheckout 0 ⟨3600000, "2025-01-01"⟩]

/-- Check in on 2025-01-01, check out and check in again on 2025-01-02:
the cross-midnight checkout silently skips the open entry. -/
def crossMidnightOps : List Mutation :=
  [.mCreate "Ada" 20 8, .mCheckin 0 ⟨0, "2025-01-01"⟩,
   .mCheckout 0 ⟨90000000, "2025-01-02"⟩,
   .mCheckin 0 ⟨90000000, "2025-01-02"⟩]

/-! ## General list lemmas -/

/-- Replacing (by key) the entry an earlier `find?` located makes a
later `find?` for the same key return the replacement. -/
theorem find?_map_set {α : Type} (key : α → Nat) (l : List α) (k : Nat)
    (v : α) (hv : key v = k) {a : α}
    (h : l.find? (fun u => key u == k) = some a) :
    (l.map (fun u => if key u == k then v else u)).find?
      (fun u => key u == k) = some v := by
  induction l with
  | nil => simp at h
  | cons x xs ih =>
    by_cases hx : key x == k
    · simp only [List.map_cons, if_pos hx]
      exact List.find?_cons_of_pos _ (by simp [hv])
    · simp only [List.map_cons, if_neg hx]
      rw [List.find?_cons_of_neg _ (by simpa using hx)]
      rw [List.find?_cons_of_neg _ (by simpa using hx)] at h
      exact ih h

/-- Replacing by key leaves the list of keys unchanged. -/
theorem map_key_set {α : Type} (key : α → Nat) (l : List α) (k : Nat)
    (v : α) (hv : key v = k) :
    (l.map (fun u => if key u == k then v else u)).map key = l.map key := by
  rw [List.map_map]
  refine List.map_congr_left (fun x hx => ?_)
  by_cases h : (key x == k) = true
  · have h' : key x = k := by simpa using h
    simp [Function.comp, h, hv, h']
  · simp [Function.comp, h]

/-- A member of a key-replaced list is the replacement or an untouched
old member. -/
theorem mem_map_set {α : Type} (key : α → Nat) (l : List α) (k : Nat)
    (v : α) {t : α}
    (htm : t ∈ l.map (fun u => if key u == k then v else u)) :
    t = v ∨ (t ∈ l ∧ (key t == k) = false) := by
  obtain ⟨u, hu, heq⟩ := List.mem_map.mp htm
  by_cases h : key u == k
  · left; rw [← heq, if_pos h]
  · right; rw [← heq, if_neg h]; exact ⟨hu, by simpa using h⟩

/-- With pairwise-distinct keys, `find?` by a member's key returns that
member. -/
theorem find?_key_of_nodup {α : Type} (key : α → Nat) (l : List α)
    (hnd : (l.map key).Nodup) (a : α) (ha : a ∈ l) :
    l.find? (fun u => key u == key a) = some a := by
  induction l with
  | nil => cases ha
  | cons x xs ih =>
    rcases List.mem_cons.mp ha with rfl | ha'
    · exact List.find?_cons_of_pos _ (by simp)
    · by_cases h : key x == key a
      · exfalso
        have hk : key a ∈ xs.map key := List.mem_map.mpr ⟨a, ha', rfl⟩
        have := (List.nodup_cons.mp hnd).1
        exact this (by rw [show key x = key a from by simpa using h] at *; exact hk)
      · rw [List.find?_cons_of_neg _ (by simpa using h)]
        exact ih (List.nodup_cons.mp hnd).2 ha'

/-- Filtering commutes with a pointwise replacement that either leaves
an element unchanged or keeps it out of the filter on both sides. -/
theorem filter_map_set_eq {α : Type} (f : α → α) (q : α → Bool)
    (l : List α)
    (h : ∀ x ∈ l, f x = x ∨ (q x = false ∧ q (f x) = false)) :
    (l.map f).filter q = l.filter q := by
  induction l with
  | nil => rfl
  | cons x xs ih =>
    have hx := h x (List.mem_cons_self x xs)
    have hxs := ih (fun y hy => h y (List.mem_cons_of_mem x hy))
    rcases hx with hx | ⟨hq, hqf⟩
    · simp only [List.map_cons, hx, List.filter_cons]
      cases hqx : q x <;> simp [hqx, hxs]
    · simp [List.filter_cons, hq, hqf, hxs]

/-- If the open entries of a teacher are exactly `[e0]` and `e0` is
dated `d`, the checkout handler's `find` over that teacher's entries
locates `e0`. -/
theorem find?_open_entry (l : List TimeEntry) (tid : Nat) (d : String)
    (e0 : TimeEntry)
    (h : l.filter (fun e => e.teacherId == tid && e.checkOutTime.isNone)
      = [e0])
    (hd : e0.date = d) :
    (l.filter (fun e => e.teacherId == tid)).find?
      (fun e => e.date == d && e.checkOutTime.isNone) = some e0 := by
  induction l with
  | nil => simp at h
  | cons x xs ih =>
    simp only [List.filter_cons] at h ⊢
    by_cases h1 : (x.teacherId == tid) = true
    · by_cases h2 : x.checkOutTime.isNone = true
      · rw [if_pos (by simp [h1, h2])] at h
        obtain ⟨rfl, -⟩ : x = e0 ∧
            xs.filter (fun e => e.teacherId == tid && e.checkOutTime.isNone)
              = [] := by simpa using h
        rw [if_pos h1]
        exact @List.find?_cons_of_pos _
          (fun e => e.date == d && e.checkOutTime.isNone) x
          (xs.filter (fun e => e.teacherId == tid)) (by simp [hd, h2])
      · rw [if_neg (by simp [h2])] at h
        rw [if_pos h1]
        rw [@List.find?_cons_of_neg _
          (fun e => e.date == d && e.checkOutTime.isNone) x
          (xs.filter (fun e => e.teacherId == tid)) (by simp [h2])]
        exact ih h
    · rw [if_neg (by simp [h1])] at h
      rw [if_neg h1]
      exact ih h

/-- A member of the teacher list after `storage.updateTeacher` is an
old member or the patch applied to an old member. -/
theorem updateTeacher_mem (s : StoreState) (id : Nat) (p : TeacherPatch)
    {t : Teacher} (htm : t ∈ (s.updateTeacher id p).1.teachers) :
    t ∈ s.teachers ∨ ∃ u ∈ s.teachers, t = applyTeacherPatch u p := by
  unfold StoreState.updateTeacher at htm
  rcases hf : s.teachers.find? (fun u => u.id == id) with _ | u <;>
    rw [hf] at htm
  · exact Or.inl htm
  · simp only at htm
    rcases mem_map_set Teacher.id s.teachers id _ htm with rfl | ⟨h1, _⟩
    · exact Or.inr ⟨u, List.mem_of_find?_eq_some hf, rfl⟩
    · exact Or.inl h1

/-- `storage.updateTimeEntry` touches only the time-entry map. -/
theorem updateTimeEntry_teachers (s : StoreState) (id : Nat)
    (p : TimeEntryPatch) : (s.updateTimeEntry id p).1.teachers = s.teachers := by
  unfold StoreState.updateTimeEntry
  rcases hf : s.timeEntries.find? (fun e => e.id == id) with _ | e <;>
    simp [hf]

/-- Pairwise-distinct keys make the key function injective on the
list's members. -/
theorem eq_of_key_eq_of_nodup {α : Type} (key : α → Nat) (l : List α)
    (hnd : (l.map key).Nodup) {a b : α} (ha : a ∈ l) (hb : b ∈ l)
    (h : key a = key b) : a = b := by
  induction l with
  | nil => cases ha
  | cons x xs ih =>
    rw [List.map_cons, List.nodup_cons] at hnd
    rcases List.mem_cons.mp ha with rfl | ha' <;>
      rcases List.mem_cons.mp hb with rfl | hb'
    · rfl
    · exact absurd (List.mem_map.mpr ⟨b, hb', h.symm⟩) hnd.1
    · exact absurd (List.mem_map.mpr ⟨a, ha', h⟩) hnd.1
    · exact ih hnd.2 ha' hb'

/-- Appending an element strictly larger than everything present keeps
a list of naturals duplicate-free. -/
theorem nodup_append_fresh (l : List Nat) (n : Nat) (hnd : l.Nodup)
    (hlt : ∀ i ∈ l, i < n) : (l ++ [n]).Nodup := by
  rw [List.nodup_append]
  refine ⟨hnd, List.nodup_singleton n, ?_⟩
  intro a ha hb
  rw [List.mem_singleton] at hb
  exact absurd hb (hlt a ha).ne

/-- `storage.updateTeacher` touches only the teacher map. -/
theorem updateTeacher_timeEntries (s : StoreState) (id : Nat)
    (p : TeacherPatch) : (s.updateTeacher id p).1.timeEntries = s.timeEntries := by
  unfold StoreState.updateTeacher
  rcases hf : s.teachers.find? (fun t => t.id == id) with _ | t <;> simp [hf]

/-- `storage.updateTeacher` leaves the time-entry query unchanged. -/
theorem updateTeacher_entriesByTeacher (s : StoreState) (id : Nat)
    (p : TeacherPatch) (tid : Nat) :
    (s.updateTeacher id p).1.getTimeEntriesByTeacher tid
      = s.getTimeEntriesByTeacher tid := by
  unfold StoreState.getTimeEntriesByTeacher
  rw [updateTeacher_timeEntries]

/-- The store after a successful check-in, written out explicitly. -/
theorem checkin_success_state (s : StoreState) (id : Nat) (now : Instant)
    (teacher : Teacher) (hg : s.getTeacher id = some teacher)
    (hb : teacher.isCheckedIn = false) :
    (checkin s id now).1 =
      { teachers := s.teachers.map (fun u => if u.id == id then applyTeacherPatch teacher (checkinPatch now) else u)
        timeEntries := s.timeEntries ++ [newOpenEntry s id now]
        appSettings := s.appSettings
        nextId := s.nextId + 1 } := by
  have ht' : s.teachers.find? (fun u => u.id == id) = some teacher := hg
  simp [checkin, hg, hb, StoreState.updateTeacher, ht',
    StoreState.createTimeEntry, checkinPatch, newOpenEntry]

/-- The store after a checkout that finds no open entry for today:
only the teacher record changes. -/
theorem checkout_skip_state (s : StoreState) (id : Nat) (now : Instant)
    (teacher : Teacher) (c : ℚ) (hg : s.getTeacher id = some teacher)
    (hb : teacher.isCheckedIn = true)
    (hc : teacher.currentCheckInTime = some c)
    (hfind : (s.getTimeEntriesByTeacher id).find?
      (fun e => e.date == now.date && e.checkOutTime.isNone) = none) :
    (checkout s id now).1 =
      { teachers := s.teachers.map (fun u => if u.id == id then applyTeacherPatch teacher checkoutPatch else u)
        timeEntries := s.timeEntries
        appSettings := s.appSettings
        nextId := s.nextId } := by
  have ht' : s.teachers.find? (fun u => u.id == id) = some teacher := hg
  simp only [checkout, hg, hb, hc]
  rw [updateTeacher_entriesByTeacher, hfind]
  simp [StoreState.updateTeacher, ht', checkoutPatch]

/-- The store after a checkout that finds the open entry `e0` for
today (`e0` being the first entry carrying its id): the teacher is
reset and `e0` is finalized. -/
theorem checkout_close_state (s : StoreState) (id : Nat) (now : Instant)
    (teacher : Teacher) (c : ℚ) (e0 : TimeEntry)
    (hg : s.getTeacher id = some teacher)
    (hb : teacher.isCheckedIn = true)
    (hc : teacher.currentCheckInTime = some c)
    (hfind : (s.getTimeEntriesByTeacher id).find?
      (fun e => e.date == now.date && e.checkOutTime.isNone) = some e0)
    (hone : s.timeEntries.find? (fun u => u.id == e0.id) = some e0) :
    (checkout s id now).1 =
      { teachers := s.teachers.map (fun u => if u.id == id then applyTeacherPatch teacher checkoutPatch else u)
        timeEntries := s.timeEntries.map (fun u => if u.id == e0.id then applyEntryPatch e0 (closeEntryPatch now teacher c) else u)
        appSettings := s.appSettings
        nextId := s.nextId } := by
  have ht' : s.teachers.find? (fun u => u.id == id) = some teacher := hg
  simp only [checkout, hg, hb, hc]
  rw [updateTeacher_entriesByTeacher, hfind]
  simp [StoreState.updateTimeEntry, updateTeacher_timeEntries, hone,
    StoreState.updateTeacher, ht', checkoutPatch, closeEntryPatch]

/-- The empty store satisfies the invariant for every date. -/
theorem storeInv_empty (d : String) : StoreInv d emptyStore := by
  constructor <;> simp [emptyStore, openEntriesFor]

/-- Teacher creation preserves the invariant. -/
theorem storeInv_create (d : String) (s : StoreState) (hs : StoreInv d s)
    (name : String) (rate cap : ℚ) :
    StoreInv d (s.createTeacher name rate cap).1 := by
  have hfresh : ∀ e ∈ s.timeEntries, (e.teacherId == s.nextId) = false := by
    intro e he
    obtain ⟨t, htm, hid⟩ := List.mem_map.mp (hs.owner e he)
    simp only [beq_eq_false_iff_ne]
    rw [← hid]
    exact (hs.teacher_lt t htm).ne
  constructor
  case teachers_nodup =>
    simp only [StoreState.createTeacher, List.map_append, List.map_cons,
      List.map_nil]
    refine nodup_append_fresh _ _ hs.teachers_nodup (fun i hi => ?_)
    obtain ⟨t, ht, rfl⟩ := List.mem_map.mp hi
    exact hs.teacher_lt t ht
  case entries_nodup =>
    exact hs.entries_nodup
  case teacher_lt =>
    intro t htm
    simp only [StoreState.createTeacher, List.mem_append,
      List.mem_singleton] at htm
    rcases htm with h | rfl
    · exact Nat.lt_succ_of_lt (hs.teacher_lt t h)
    · exact Nat.lt_succ_self _
  case entry_lt =>
    intro e he
    exact Nat.lt_succ_of_lt (hs.entry_lt e he)
  case owner =>
    intro e he
    simp only [StoreState.createTeacher, List.map_append, List.map_cons,
      List.map_nil]
    exact List.mem_append_left _ (hs.owner e he)
  case open_in =>
    intro t htm hbt
    simp only [StoreState.createTeacher, List.mem_append,
      List.mem_singleton] at htm
    rcases htm with h | rfl
    · exact hs.open_in t h hbt
    · simp at hbt
  case open_out =>
    intro t htm hbt
    simp only [StoreState.createTeacher, List.mem_append,
      List.mem_singleton] at htm
    rcases htm with h | rfl
    · exact hs.open_out t h hbt
    · refine List.filter_eq_nil_iff.mpr (fun e he => ?_)
      simp [hfresh e he]

/-- Check-in preserves the invariant when performed on date `d`. -/
theorem storeInv_checkin (d : String) (s : StoreState) (hs : StoreInv d s)
    (id : Nat) (now : Instant) (hd : now.date = d) :
    StoreInv d (checkin s id now).1 := by
  rcases hg : s.getTeacher id with _ | teacher
  · have hunch : (checkin s id now).1 = s := by simp [checkin, hg]
    rw [hunch]; exact hs
  · by_cases hb : teacher.isCheckedIn = true
    · have hunch : (checkin s id now).1 = s := by simp [checkin, hg, hb]
      rw [hunch]; exact hs
    · have hb' : teacher.isCheckedIn = false := by simpa using hb
      have ht' : s.teachers.find? (fun u => u.id == id) = some teacher := hg
      have htid : teacher.id = id := by simpa using List.find?_some ht'
      have hmem : teacher ∈ s.teachers := List.mem_of_find?_eq_some ht'
      have hTid : (applyTeacherPatch teacher (checkinPatch now)).id = id := by
        simp [applyTeacherPatch, htid]
      have hmapid : (s.teachers.map (fun u => if u.id == id then
            applyTeacherPatch teacher (checkinPatch now) else u)).map
            Teacher.id = s.teachers.map Teacher.id :=
        map_key_set Teacher.id s.teachers id _ hTid
      have hopen0 : s.timeEntries.filter
          (fun e => e.teacherId == id && e.checkOutTime.isNone) = [] :=
        htid ▸ hs.open_out teacher hmem hb'
      rw [checkin_success_state s id now teacher hg hb']
      constructor
      ·
        dsimp only
        rw [hmapid]
        exact hs.teachers_nodup
      ·
        dsimp only
        simp only [List.map_append, List.map_cons, List.map_nil, newOpenEntry]
        refine nodup_append_fresh _ _ hs.entries_nodup (fun i hi => ?_)
        obtain ⟨e, he, rfl⟩ := List.mem_map.mp hi
        exact hs.entry_lt e he
      ·
        intro t htm
        dsimp only at htm ⊢
        rcases mem_map_set Teacher.id s.teachers id _ htm with rfl | ⟨hold, -⟩
        · rw [hTid, ← htid]
          exact Nat.lt_succ_of_lt (hs.teacher_lt teacher hmem)
        · exact Nat.lt_succ_of_lt (hs.teacher_lt t hold)
      ·
        intro e he
        dsimp only at he ⊢
        rcases List.mem_append.mp he with h | h
        · exact Nat.lt_succ_of_lt (hs.entry_lt e h)
        · rw [List.mem_singleton] at h
          subst h
          exact Nat.lt_succ_self _
      ·
        intro e he
        dsimp only at he ⊢
        rw [hmapid]
        rcases List.mem_append.mp he with h | h
        · exact hs.owner e h
        · rw [List.mem_singleton] at h
          subst h
          exact List.mem_map.mpr ⟨teacher, hmem, htid⟩
      ·
        intro t htm hbt
        dsimp only at htm
        rcases mem_map_set Teacher.id s.teachers id _ htm with rfl | ⟨hold, hne⟩
        · refine ⟨newOpenEntry s id now, ?_, ?_⟩
          · rw [hTid]
            simp only [openEntriesFor, List.filter_append]
            rw [hopen0]
            simp [newOpenEntry]
          · simpa [newOpenEntry] using hd
        · obtain ⟨e, he, hde⟩ := hs.open_in t hold hbt
          refine ⟨e, ?_, hde⟩
          have hne' : (id == t.id) = false := by
            simp only [beq_eq_false_iff_ne]
            intro h
            rw [← h] at hne
            simp at hne
          simp only [openEntriesFor, List.filter_append]
          simp only [newOpenEntry, List.filter_cons, List.filter_nil, hne',
            Bool.false_and, Bool.false_eq_true, if_false, List.append_nil]
          exact he
      ·
        intro t htm hbt
        dsimp only at htm
        rcases mem_map_set Teacher.id s.teachers id _ htm with rfl | ⟨hold, hne⟩
        · simp [applyTeacherPatch, checkinPatch] at hbt
        · have h0 := hs.open_out t hold hbt
          have hne' : (id == t.id) = false := by
            simp only [beq_eq_false_iff_ne]
            intro h
            rw [← h] at hne
            simp at hne
          simp only [openEntriesFor, List.filter_append]
          simp only [newOpenEntry, List.filter_cons, List.filter_nil, hne',
            Bool.false_and, Bool.false_eq_true, if_false, List.append_nil]
          exact h0

/-- Check-out preserves the invariant when performed on date `d`. -/
theorem storeInv_checkout (d : String) (s : StoreState) (hs : StoreInv d s)
    (id : Nat) (now : Instant) (hd : now.date = d) :
    StoreInv d (checkout s id now).1 := by
  rcases hg : s.getTeacher id with _ | teacher
  · have hunch : (checkout s id now).1 = s := by simp [checkout, hg]
    rw [hunch]; exact hs
  · cases hb : teacher.isCheckedIn with
    | false =>
      have hunch : (checkout s id now).1 = s := by simp [checkout, hg, hb]
      rw [hunch]; exact hs
    | true =>
      rcases hc : teacher.currentCheckInTime with _ | c
      · have hunch : (checkout s id now).1 = s := by
          simp [checkout, hg, hb, hc]
        rw [hunch]; exact hs
      · have ht' : s.teachers.find? (fun u => u.id == id) = some teacher := hg
        have htid : teacher.id = id := by simpa using List.find?_some ht'
        have hmem : teacher ∈ s.teachers := List.mem_of_find?_eq_some ht'
        obtain ⟨e0, hopen, hdate⟩ := hs.open_in teacher hmem hb
        rw [htid] at hopen
        have hopenf : s.timeEntries.filter
            (fun e => e.teacherId == id && e.checkOutTime.isNone) = [e0] :=
          hopen
        have he0o : e0 ∈ openEntriesFor s id := by
          rw [hopen]; exact List.mem_singleton.mpr rfl
        have he0mem : e0 ∈ s.timeEntries := (List.mem_filter.mp he0o).1
        have he0p := (List.mem_filter.mp he0o).2
        have he0tid : e0.teacherId = id := by
          simpa using Bool.and_elim_left he0p
        have hfind : (s.getTimeEntriesByTeacher id).find?
            (fun e => e.date == now.date && e.checkOutTime.isNone)
            = some e0 :=
          find?_open_entry s.timeEntries id now.date e0 hopenf
            (hdate.trans hd.symm)
        have hone : s.timeEntries.find? (fun u => u.id == e0.id) = some e0 :=
          find?_key_of_nodup TimeEntry.id s.timeEntries hs.entries_nodup e0
            he0mem
        have hTid : (applyTeacherPatch teacher checkoutPatch).id = id := by
          simp [applyTeacherPatch, htid]
        have hCid : (applyEntryPatch e0 (closeEntryPatch now teacher c)).id
            = e0.id := rfl
        have hCclosed : (applyEntryPatch e0
            (closeEntryPatch now teacher c)).checkOutTime.isNone = false :=
          rfl
        have hmapidT : (s.teachers.map (fun u => if u.id == id then
              applyTeacherPatch teacher checkoutPatch else u)).map Teacher.id
            = s.teachers.map Teacher.id :=
          map_key_set Teacher.id s.teachers id _ hTid
        have hmapidE : (s.timeEntries.map (fun u => if u.id == e0.id then
              applyEntryPatch e0 (closeEntryPatch now teacher c) else u)).map
              TimeEntry.id
            = s.timeEntries.map TimeEntry.id :=
          map_key_set TimeEntry.id s.timeEntries e0.id _ hCid
        have hofil : ∀ tid, tid ≠ id →
            (s.timeEntries.map (fun u => if u.id == e0.id then
              applyEntryPatch e0 (closeEntryPatch now teacher c) else u)).filter
              (fun e => e.teacherId == tid && e.checkOutTime.isNone)
            = s.timeEntries.filter
              (fun e => e.teacherId == tid && e.checkOutTime.isNone) := by
          intro tid hne
          apply filter_map_set_eq
          intro x hx
          by_cases hxe : (x.id == e0.id) = true
          · have hxeq : x = e0 :=
              eq_of_key_eq_of_nodup TimeEntry.id s.timeEntries
                hs.entries_nodup hx he0mem (by simpa using hxe)
            subst hxeq
            right
            have hidtid : (id == tid) = false := by
              simp only [beq_eq_false_iff_ne]
              exact fun h => hne h.symm
            refine ⟨?_, ?_⟩
            · simp [he0tid, hidtid]
            · rw [if_pos (by simp : (x.id == x.id) = true)]
              have : (applyEntryPatch x (closeEntryPatch now teacher c)).teacherId
                  = id := he0tid
              simp [this, hidtid]
          · left
            rw [if_neg hxe]
        have hoclosed :
            (s.timeEntries.map (fun u => if u.id == e0.id then
              applyEntryPatch e0 (closeEntryPatch now teacher c) else u)).filter
              (fun e => e.teacherId == id && e.checkOutTime.isNone) = [] := by
          refine List.filter_eq_nil_iff.mpr (fun y hy => ?_)
          obtain ⟨x, hx, rfl⟩ := List.mem_map.mp hy
          by_cases hxe : (x.id == e0.id) = true
          · rw [if_pos hxe]
            simp [hCclosed]
          · rw [if_neg hxe]
            intro hq
            have hxin : x ∈ s.timeEntries.filter
                (fun e => e.teacherId == id && e.checkOutTime.isNone) :=
              List.mem_filter.mpr ⟨hx, hq⟩
            rw [hopenf, List.mem_singleton] at hxin
            subst hxin
            simp at hxe
        rw [checkout_close_state s id now teacher c e0 hg hb hc hfind hone]
        constructor
        · dsimp only
          rw [hmapidT]
          exact hs.teachers_nodup
        · dsimp only
          rw [hmapidE]
          exact hs.entries_nodup
        · intro t htm
          dsimp only at htm ⊢
          rcases mem_map_set Teacher.id s.teachers id _ htm with rfl | ⟨hold, -⟩
          · rw [hTid, ← htid]
            exact hs.teacher_lt teacher hmem
          · exact hs.teacher_lt t hold
        · intro e he
          dsimp only at he ⊢
          rcases mem_map_set TimeEntry.id s.timeEntries e0.id _ he with
            rfl | ⟨hold, -⟩
          · rw [hCid]
            exact hs.entry_lt e0 he0mem
          · exact hs.entry_lt e hold
        · intro e he
          dsimp only at he ⊢
          rw [hmapidT]
          rcases mem_map_set TimeEntry.id s.timeEntries e0.id _ he with
            rfl | ⟨hold, -⟩
          · show (applyEntryPatch e0 (closeEntryPatch now teacher c)).teacherId
              ∈ s.teachers.map Teacher.id
            show e0.teacherId ∈ s.teachers.map Teacher.id
            exact hs.owner e0 he0mem
          · exact hs.owner e hold
        · intro t htm hbt
          dsimp only at htm
          rcases mem_map_set Teacher.id s.teachers id _ htm with rfl | ⟨hold, hne⟩
          · simp [applyTeacherPatch, checkoutPatch] at hbt
          · obtain ⟨e, heq, hde⟩ := hs.open_in t hold hbt
            refine ⟨e, ?_, hde⟩
            have hne2 : t.id ≠ id := by simpa using hne
            simp only [openEntriesFor]
            rw [hofil t.id hne2]
            exact heq
        · intro t htm hbt
          dsimp only at htm
          rcases mem_map_set Teacher.id s.teachers id _ htm with rfl | ⟨hold, hne⟩
          · simp only [openEntriesFor]
            rw [hTid]
            exact hoclosed
          · have hne2 : t.id ≠ id := by simpa using hne
            simp only [openEntriesFor]
            rw [hofil t.id hne2]
            exact hs.open_out t hold hbt

/-! ## Claim theorems -/

/-- C5: a check-in request for a teacher who is already checked in
returns the conflict error and leaves the whole store state — the
teacher record, the time-entry collection, and everything else —
unchanged. -/
theorem checkin_already_checked_in_unchanged (s : StoreState) (id : Nat)
    (now : Instant) (t : Teacher)
    (ht : s.getTeacher id = some t) (hin : t.isCheckedIn = true) :
    checkin s id now = (s, TeacherOpResult.conflict) := by
  simp [checkin, ht, hin]

/-- Witness for C5 at a concrete store. -/
theorem checkin_already_checked_in_unchanged_witness :
    checkin storeIn 0 ⟨3600000, "2025-01-01"⟩ =
      (storeIn, TeacherOpResult.conflict) :=
  checkin_already_checked_in_unchanged storeIn 0 ⟨3600000, "2025-01-01"⟩
    teacherIn (by rfl) rfl

/-- C6: a check-out request for a teacher whose `isCheckedIn` is false
or whose `currentCheckInTime` is null returns the conflict error and
leaves the whole store state unchanged. -/
theorem checkout_not_checked_in_unchanged (s : StoreState) (id : Nat)
    (now : Instant) (t : Teacher) (ht : s.getTeacher id = some t)
    (h : t.isCheckedIn = false ∨ t.currentCheckInTime = none) :
    checkout s id now = (s, TeacherOpResult.conflict) := by
  rcases h with h | h
  · simp [checkout, ht, h]
  · cases hb : t.isCheckedIn <;> simp [checkout, ht, h, hb]

/-- Witness for C6 at a concrete store. -/
theorem checkout_not_checked_in_unchanged_witness :
    checkout storeOut 0 ⟨3600000, "2025-01-01"⟩ =
      (storeOut, TeacherOpResult.conflict) :=
  checkout_not_checked_in_unchanged storeOut 0 ⟨3600000, "2025-01-01"⟩
    teacherOut (by rfl) (Or.inl rfl)

/-- C8: the admin delete route removes only the teacher record: the
time entries (orphaned ones included) and the app settings are left
exactly as they were, and the teacher list merely loses the records
with the deleted id. -/
theorem delete_teacher_no_cascade (s : StoreState) (id : Nat) :
    (deleteTeacherRoute s true id).1.timeEntries = s.timeEntries ∧
    (deleteTeacherRoute s true id).1.appSettings = s.appSettings ∧
    (deleteTeacherRoute s true id).1.teachers
      = s.teachers.filter (fun t => !(t.id == id)) := by
  unfold deleteTeacherRoute StoreState.deleteTeacher
  by_cases hx : s.teachers.any (fun t => t.id == id)
  · simp [hx]
  · have hall : ∀ t ∈ s.teachers, (!(t.id == id)) = true := by
      intro t htm
      simp only [Bool.not_eq_true', beq_eq_false_iff_ne]
      intro he
      exact hx (List.any_eq_true.mpr ⟨t, htm, by simp [he]⟩)
    simp [hx, List.filter_eq_self.mpr hall]

/-- C10: a completed time entry whose `teacherId` matches no existing
teacher still yields an export row, with `teacherName = "Unknown"` and
`hourlyRate = 0`; such entries are never dropped from the export. -/
theorem export_includes_orphan_entries (s : StoreState) (e : TimeEntry)
    (w : ℚ) (he : e ∈ s.timeEntries) (hw : e.checkOutTime = some w)
    (hno : ∀ t ∈ s.teachers, t.id ≠ e.teacherId) :
    ∃ rows, exportTimesheet s true none none = some rows ∧
      ({ teacherName := "Unknown", date := e.date,
         checkInTime := e.checkInTime, checkOutTime := some w,
         hoursWorked := e.hoursWorked, billableHours := e.billableHours,
         hourlyRate := 0, pay := e.pay } : ExportRow) ∈ rows := by
  refine ⟨_, rfl, ?_⟩
  rw [(List.mergeSort_perm _ _).mem_iff]
  refine List.mem_map.mpr ⟨e, List.mem_filter.mpr ⟨he, by simp [hw]⟩, ?_⟩
  have hfind : s.teachers.find? (fun t => t.id == e.teacherId) = none :=
    List.find?_eq_none.mpr (fun t ht => by simpa using hno t ht)
  simp [exportRowOf, hfind, hw]

/-- Witness for C10 at a concrete store. -/
theorem export_includes_orphan_entries_witness :
    ∃ rows, exportTimesheet storeOrphan true none none = some rows ∧
      ({ teacherName := "Unknown", date := doneEntry.date,
         checkInTime := doneEntry.checkInTime, checkOutTime := some 3600000,
         hoursWorked := doneEntry.hoursWorked,
         billableHours := doneEntry.billableHours,
         hourlyRate := 0, pay := doneEntry.pay } : ExportRow) ∈ rows :=
  export_includes_orphan_entries storeOrphan doneEntry 3600000
    (by simp [storeOrphan]) rfl (by simp [storeOrphan])

/-- C1: a checkout of an existing, checked-in teacher with non-null
`currentCheckInTime` records, on the finalized entry,
`hoursWorked = (now - checkIn) / 1h`,
`billableHours = min hoursWorked maxBillableHours`, and
`pay = billableHours * hourlyRate`, for non-negative `hoursWorked`. -/
theorem checkout_records_capped_pay (s : StoreState) (id : Nat)
    (now : Instant) (t : Teacher) (c : ℚ) (e0 : TimeEntry)
    (ht : s.getTeacher id = some t)
    (hin : t.isCheckedIn = true)
    (hc : t.currentCheckInTime = some c)
    (_hpos : 0 ≤ (now.time - c) / (1000 * 60 * 60))
    (hfind : (s.getTimeEntriesByTeacher id).find?
      (fun e => e.date == now.date && e.checkOutTime.isNone) = some e0) :
    ∃ e', (checkout s id now).1.getTimeEntry e0.id = some e' ∧
      e'.hoursWorked = some ((now.time - c) / (1000 * 60 * 60)) ∧
      e'.billableHours
        = some (min ((now.time - c) / (1000 * 60 * 60)) t.maxBillableHours) ∧
      e'.pay = some (min ((now.time - c) / (1000 * 60 * 60))
        t.maxBillableHours * t.hourlyRate) := by
  have he0mem : e0 ∈ s.timeEntries :=
    (List.mem_filter.mp (List.mem_of_find?_eq_some hfind)).1
  have hsome : (s.timeEntries.find? (fun u => u.id == e0.id)).isSome :=
    List.find?_isSome.mpr ⟨e0, he0mem, by simp⟩
  obtain ⟨e1, he1⟩ := Option.isSome_iff_exists.mp hsome
  have hid : e1.id = e0.id := by simpa using List.find?_some he1
  simp only [checkout, ht, hin, hc]
  rw [updateTeacher_entriesByTeacher, hfind]
  simp only [StoreState.updateTimeEntry, updateTeacher_timeEntries, he1]
  refine ⟨applyEntryPatch e1
    { checkOutTime := some (some now.time),
      hoursWorked := some (some ((now.time - c) / (1000 * 60 * 60))),
      billableHours := some (some (min ((now.time - c) / (1000 * 60 * 60))
        t.maxBillableHours)),
      pay := some (some (min ((now.time - c) / (1000 * 60 * 60))
        t.maxBillableHours * t.hourlyRate)) }, ?_, rfl, rfl, rfl⟩
  exact find?_map_set TimeEntry.id s.timeEntries e0.id _ hid he1

/-- Witness for C1: ten hours at rate 20 capped at 8 billable hours
records pay 160. -/
theorem checkout_records_capped_pay_witness :
    ∃ e', (checkout storeIn 0 ⟨36000000, "2025-01-01"⟩).1.getTimeEntry 1
        = some e' ∧
      e'.hoursWorked = some ((36000000 - 0) / (1000 * 60 * 60)) ∧
      e'.billableHours = some (min ((36000000 - 0) / (1000 * 60 * 60)) 8) ∧
      e'.pay = some (min ((36000000 - 0) / (1000 * 60 * 60)) 8 * 20) :=
  checkout_records_capped_pay storeIn 0 ⟨36000000, "2025-01-01"⟩ teacherIn 0
    openEntry1 (by rfl) rfl rfl (by norm_num) (by rfl)

/-- C7: a checkout of a checked-in teacher with no open entry dated
today succeeds — the response is `ok` and the teacher is reset to
`isCheckedIn = false`, `currentCheckInTime = null` — while the
time-entry collection is left exactly as it was. -/
theorem checkout_silent_skip (s : StoreState) (id : Nat) (now : Instant)
    (t : Teacher) (c : ℚ)
    (ht : s.getTeacher id = some t)
    (hin : t.isCheckedIn = true)
    (hc : t.currentCheckInTime = some c)
    (hnone : ∀ e ∈ s.timeEntries,
      e.teacherId = id → e.date = now.date → e.checkOutTime ≠ none) :
    ∃ t', (checkout s id now).2 = TeacherOpResult.ok (some t') ∧
      t'.isCheckedIn = false ∧ t'.currentCheckInTime = none ∧
      (checkout s id now).1.timeEntries = s.timeEntries ∧
      (checkout s id now).1.getTeacher id = some t' := by
  have ht' : s.teachers.find? (fun u => u.id == id) = some t := ht
  have htid : t.id = id := by simpa using List.find?_some ht'
  have hfnone : (s.getTimeEntriesByTeacher id).find?
      (fun e => e.date == now.date && e.checkOutTime.isNone) = none := by
    refine List.find?_eq_none.mpr (fun e he => ?_)
    obtain ⟨hmem, hteq⟩ := List.mem_filter.mp he
    simp only [Bool.and_eq_true, beq_iff_eq, Option.isNone_iff_eq_none,
      not_and]
    exact fun hdate =>
      hnone e hmem (by simpa using hteq) hdate
  simp only [checkout, ht, hin, hc]
  rw [updateTeacher_entriesByTeacher, hfnone]
  refine ⟨applyTeacherPatch t
    { isCheckedIn := some false, currentCheckInTime := some none },
    ?_, rfl, rfl, ?_, ?_⟩
  · simp [StoreState.updateTeacher, ht']
  · simp [updateTeacher_timeEntries]
  · simp only [StoreState.updateTeacher, ht', StoreState.getTeacher]
    exact find?_map_set Teacher.id s.teachers id _ htid ht'

/-- Witness for C7: checking out on 2025-01-02 while the only open
entry is dated 2025-01-01 resets the teacher and touches no entry. -/
theorem checkout_silent_skip_witness :
    ∃ t', (checkout storeIn 0 ⟨3600000, "2025-01-02"⟩).2
        = TeacherOpResult.ok (some t') ∧
      t'.isCheckedIn = false ∧ t'.currentCheckInTime = none ∧
      (checkout storeIn 0 ⟨3600000, "2025-01-02"⟩).1.timeEntries
        = storeIn.timeEntries ∧
      (checkout storeIn 0 ⟨3600000, "2025-01-02"⟩).1.getTeacher 0 = some t' :=
  checkout_silent_skip storeIn 0 ⟨3600000, "2025-01-02"⟩ teacherIn 0
    (by rfl) rfl rfl (by decide)

/-- C9: when app settings already exist, a second PIN-setup request is
rejected (never `ok`), the store — in particular the stored `pinHash` —
is unchanged, and PIN validation behaves exactly as before, so the
first PIN still validates. -/
theorem setup_pin_already_configured (s : StoreState) (pin : String)
    (a : AppSettings) (h : s.appSettings = some a) :
    (setupPin s pin).1 = s ∧ (setupPin s pin).2 ≠ SetupPinResult.ok ∧
    ∀ p, (setupPin s pin).1.validatePin p = s.validatePin p := by
  by_cases hf : pinFormatValid pin = true
  · simp [setupPin, hf, h]
  · simp [setupPin, hf]

/-- Witness for C9: after the rejected second setup, the original PIN
`1234` still validates and the impostor PIN does not. -/
theorem setup_pin_already_configured_witness :
    ((setupPin storePin "5678").1 = storePin ∧
      (setupPin storePin "5678").2 ≠ SetupPinResult.ok ∧
      ∀ p, (setupPin storePin "5678").1.validatePin p
        = storePin.validatePin p) ∧
    storePin.validatePin "1234" = true :=
  ⟨setup_pin_already_configured storePin "5678" ⟨0, ⟨"1234"⟩⟩ rfl, rfl⟩

/-- C3 fails as stated: an admin partial update writing only
`isCheckedIn` leaves a teacher with `isCheckedIn = true` and
`currentCheckInTime = null`. -/
theorem patch_breaks_status_invariant :
    ∃ t ∈ (patchTeacher storeOut true 0
        { isCheckedIn := some true }).1.teachers,
      t.isCheckedIn = true ∧ t.currentCheckInTime = none := by
  decide

/-- C3 (amended): the status invariant `isCheckedIn == true` iff
`currentCheckInTime != null` is preserved by teacher creation,
check-in, check-out, deletion, and those admin partial updates that do
not write the two status fields directly. -/
theorem mutation_preserves_status_invariant (s : StoreState)
    (m : Mutation) (hs : checkedInIffTime s) (hm : statusSafe m) :
    checkedInIffTime (applyMut s m) := by
  cases m with
  | mCreate name rate cap =>
    intro t htm
    simp only [applyMut, StoreState.createTeacher] at htm
    rcases List.mem_append.mp htm with h | h
    · exact hs t h
    · obtain rfl := List.mem_singleton.mp h
      simp
  | mCheckin id now =>
    rcases hg : s.getTeacher id with _ | teacher
    · simpa [applyMut, checkin, hg] using hs
    · by_cases hb : teacher.isCheckedIn
      · simpa [applyMut, checkin, hg, hb] using hs
      · intro t htm
        simp only [applyMut, checkin, hg, hb, Bool.false_eq_true,
          if_false, StoreState.createTimeEntry] at htm
        rcases updateTeacher_mem s id _ htm with h | ⟨u, hu, rfl⟩
        · exact hs t h
        · simp [applyTeacherPatch]
  | mCheckout id now =>
    rcases hg : s.getTeacher id with _ | teacher
    · simpa [applyMut, checkout, hg] using hs
    · cases hb : teacher.isCheckedIn
      · simpa [applyMut, checkout, hg, hb] using hs
      · rcases hc : teacher.currentCheckInTime with _ | c
        · simpa [applyMut, checkout, hg, hb, hc] using hs
        · intro t htm
          simp only [applyMut, checkout, hg, hb, hc] at htm
          split at htm
          · rw [updateTimeEntry_teachers] at htm
            rcases updateTeacher_mem s id _ htm with h | ⟨u, hu, rfl⟩
            · exact hs t h
            · simp [applyTeacherPatch]
          · rcases updateTeacher_mem s id _ htm with h | ⟨u, hu, rfl⟩
            · exact hs t h
            · simp [applyTeacherPatch]
  | mPatch isAdmin id p =>
    obtain ⟨hp1, hp2⟩ := hm
    intro t htm
    cases hA : isAdmin
    · simp only [applyMut, patchTeacher, hA, Bool.not_false, if_true] at htm
      exact hs t htm
    · simp only [applyMut, patchTeacher, hA, Bool.not_true,
        Bool.false_eq_true, if_false] at htm
      split at htm
      · rename_i s1 t0 heq
        have hmem : t ∈ (s.updateTeacher id p).1.teachers := by
          rw [heq]; exact htm
        rcases updateTeacher_mem s id p hmem with h | ⟨u, hu, rfl⟩
        · exact hs t h
        · simpa [applyTeacherPatch, hp1, hp2] using hs u hu
      · exact hs t htm
  | mDelete isAdmin id =>
    intro t htm
    cases hA : isAdmin
    · simp only [applyMut, deleteTeacherRoute, hA, Bool.not_false,
        if_true] at htm
      exact hs t htm
    · simp only [applyMut, deleteTeacherRoute, hA, Bool.not_true,
        Bool.false_eq_true, if_false, StoreState.deleteTeacher] at htm
      split at htm
      · exact hs t (List.mem_filter.mp htm).1
      · exact hs t htm

/-- Witness for the amended C3 at a concrete store and mutation. -/
theorem mutation_preserves_status_invariant_witness :
    checkedInIffTime (applyMut storeOut (.mCheckin 0 ⟨0, "2025-01-01"⟩)) :=
  mutation_preserves_status_invariant storeOut
    (.mCheckin 0 ⟨0, "2025-01-01"⟩) (by decide) trivial

/-- C4 evaluation: with an export filter of month 02 / year 2025, the
handler still returns the completed entry dated 2025-01-15 — the
`month`/`year` query parameters are never read. -/
theorem export_ignores_month_year_filter :
    exportTimesheet storeJan true (some "02") (some "2025") =
      some [{ teacherName := "Ada", date := "2025-01-15", checkInTime := 0,
              checkOutTime := some 3600000, hoursWorked := some 1,
              billableHours := some 1, hourlyRate := 20, pay := some 20 }] := by
  simp [exportTimesheet, storeJan, janEntry, teacherOut, exportRowOf,
    List.mergeSort_singleton]

/-- One mutation on date `d` preserves the invariant. -/
theorem storeInv_applyMut (d : String) (s : StoreState) (hs : StoreInv d s)
    (m : Mutation) (hm : mutOnDate d m) : StoreInv d (applyMut s m) := by
  cases m with
  | mCreate n r cp => exact storeInv_create d s hs n r cp
  | mCheckin id now => exact storeInv_checkin d s hs id now hm
  | mCheckout id now => exact storeInv_checkout d s hs id now hm
  | mPatch a i p => simp [mutOnDate] at hm
  | mDelete a i => simp [mutOnDate] at hm

/-- Running any same-date sequence preserves the invariant. -/
theorem storeInv_runMuts (d : String) (ops : List Mutation) (s : StoreState)
    (hs : StoreInv d s) (hops : ∀ m ∈ ops, mutOnDate d m) :
    StoreInv d (runMuts s ops) := by
  induction ops generalizing s with
  | nil => exact hs
  | cons m ms ih =>
    exact ih (applyMut s m)
      (storeInv_applyMut d s hs m (hops m (List.mem_cons_self m ms)))
      (fun x hx => hops x (List.mem_cons_of_mem m hx))

/-- C2 fails as stated: checking in on 2025-01-01 and checking out and
in again on 2025-01-02 leaves a stored teacher with two time entries
whose `checkOutTime` is null. -/
theorem cross_midnight_two_open_sessions :
    ∃ t ∈ (runMuts emptyStore crossMidnightOps).teachers,
      2 ≤ (openEntriesFor (runMuts emptyStore crossMidnightOps) t.id).length := by
  decide

/-- C2 (amended): in every state reachable from the empty store by
teacher-creation, check-in, and check-out operations that all occur on
one calendar date, every teacher has at most one open time entry —
exactly one when checked in, none otherwise. -/
theorem same_date_runs_single_open_session (d : String)
    (ops : List Mutation) (hops : ∀ m ∈ ops, mutOnDate d m) :
    ∀ t ∈ (runMuts emptyStore ops).teachers,
      (openEntriesFor (runMuts emptyStore ops) t.id).length ≤ 1 ∧
      (t.isCheckedIn = true →
        (openEntriesFor (runMuts emptyStore ops) t.id).length = 1) ∧
      (t.isCheckedIn = false →
        openEntriesFor (runMuts emptyStore ops) t.id = []) := by
  have hinv := storeInv_runMuts d ops emptyStore (storeInv_empty d) hops
  intro t htm
  cases hbt : t.isCheckedIn with
  | false =>
    have h0 := hinv.open_out t htm hbt
    refine ⟨by simp [h0], ?_, fun _ => h0⟩
    intro hT
    simp at hT
  | true =>
    obtain ⟨e, he, -⟩ := hinv.open_in t htm hbt
    refine ⟨by simp [he], fun _ => by simp [he], ?_⟩
    intro hF
    simp at hF

/-- Witness for the amended C2 at a concrete same-day run: after
create, check-in, and check-out on 2025-01-01, teacher 0 is stored,
checked out, and has no open entry. -/
theorem same_date_runs_single_open_session_witness :
    (⟨0, "Ada", 20, 8, false, none⟩ : Teacher) ∈
        (runMuts emptyStore sameDayOps).teachers ∧
    (openEntriesFor (runMuts emptyStore sameDayOps) 0).length ≤ 1 ∧
    openEntriesFor (runMuts emptyStore sameDayOps) 0 = [] := by
  have hm : (⟨0, "Ada", 20, 8, false, none⟩ : Teacher) ∈
      (runMuts emptyStore sameDayOps).teachers := by decide
  obtain ⟨h1, -, h3⟩ :=
    same_date_runs_single_open_session "2025-01-01" sameDayOps (by decide)
      ⟨0, "Ada", 20, 8, false, none⟩ hm
  exact ⟨hm, h1, h3 rfl⟩
